import Mathlib

/-!
Verification development for the miniDockReader library
(https://github.com/yonatan-v/miniDockReader).

The C++ sources are shallowly embedded:
* C++ `float` values are modelled as `Rat` (the claims under study only
  involve comparisons with 0 and exact divisions by 2, 20 and 240);
* the process-global mutable cache `g_mergedStyleCache` becomes an explicit
  association list threaded through the functions;
* the recursion of `mergeStyleCached` (which is not structurally decreasing:
  it follows `basedOn` links) is given an explicit fuel parameter; running
  out of fuel at every bound models divergence of the C++ recursion;
* a thrown C++ exception (`std::stof` / `std::stoi` on malformed input) is
  modelled by the `Res.exn` outcome;
* the tinyxml2 DOM is modelled by the `Xml` inductive; `FirstChildElement`
  / `NextSiblingElement` iteration over a fixed tag corresponds to
  filtering the child list by element name.
-/

namespace MiniDock

/-- Outcome of running a piece of the embedded C++ code: a normal return,
a thrown exception (`exn`), or exhaustion of the recursion fuel (`fuel`,
modelling non-termination of the source recursion when it happens at every
bound). -/
inductive Res (α : Type) where
  | ok (a : α)
  | exn
  | fuel
deriving DecidableEq, Repr

/-- Sequencing of embedded computations: exceptions and fuel exhaustion
propagate, mirroring C++ control flow. -/
def Res.bind {α β : Type} : Res α → (α → Res β) → Res β
  | .ok a, f => f a
  | .exn, _ => .exn
  | .fuel, _ => .fuel

/-- `enum class ElementType` from miniDockReader.h. -/
inductive ElementType where
  | Paragraph
  | Run
deriving DecidableEq, Repr

/-- `enum class Justification` from miniDockReader.h. -/
inductive Justification where
  | Left
  | Center
  | Right
  | Justify
deriving DecidableEq, Repr

/-- `struct Color` from miniDockReader.h: four octets, alpha defaulting
to 255. Octets are modelled as `Nat` (the C++ casts to `uint8_t` are made
explicit where they occur). -/
structure Color where
  r : Nat := 0
  g : Nat := 0
  b : Nat := 0
  a : Nat := 255
deriving DecidableEq, Repr

/-- `Color::empty()` from miniDockReader.h. -/
def Color.isEmpty (c : Color) : Bool :=
  c.r == 0 && c.g == 0 && c.b == 0 && c.a == 255

/-- `struct Tab` from miniDockReader.h. -/
structure Tab where
  position : Rat := 0
  alignment : Char := 'L'
  leader : String := ""
deriving DecidableEq, Repr

/-- `struct Style` from miniDockReader.h. `styleType` is uninitialized in
the C++ default constructor; the claims under study never depend on it, and
it is modelled with default `Run`. Note the header default
`lineSpacing = 1.0f` (not 0). -/
structure Style where
  styleType : ElementType := .Run
  basedOn : String := ""
  bold : Bool := false
  italic : Bool := false
  underline : Bool := false
  strikeThrough : Bool := false
  Subscript : Bool := false
  Superscript : Bool := false
  color : Color := {}
  backColor : Color := {}
  fontFamily : String := ""
  fontSize : Rat := 0
  level : Int := 0
  numbered : Bool := false
  numberFormat : String := ""
  numberStyle : String := ""
  lineSpacing : Rat := 1
  spaceBefore : Rat := 0
  spaceAfter : Rat := 0
  spaceBetweenSameStyle : Bool := false
  justification : Justification := .Left
  rightDirection : Bool := false
  indentLeft : Rat := 0
  indentRight : Rat := 0
  indentFirstLine : Rat := 0
  tabs : List Tab := []
deriving DecidableEq, Repr

/-- `struct Run` from miniDockReader.h. `noteId` is a `uint32_t`; it is
modelled as `Nat` together with an explicit reduction mod 2^32 at the one
assignment from `int`. -/
structure Run where
  text : String := ""
  lang : String := ""
  style : String := ""
  bold : Bool := false
  italic : Bool := false
  underline : Bool := false
  strike : Bool := false
  subscript : Bool := false
  superscript : Bool := false
  color : Color := {}
  backColor : Color := {}
  fontFamily : String := ""
  fontSize : Rat := 0
  noteId : Nat := 0
deriving DecidableEq, Repr

/-- `struct Paragraph` from miniDockReader.h (header default
`lineSpacing = 1.0f`). -/
structure Paragraph where
  style : String := ""
  level : Int := 0
  numbered : Bool := false
  numberFormat : String := ""
  numberStyle : String := ""
  justification : Justification := .Left
  rightDirection : Bool := false
  lineSpacing : Rat := 1
  spaceBefore : Rat := 0
  spaceAfter : Rat := 0
  spaceBetweenSameStyle : Bool := false
  indentLeft : Rat := 0
  indentRight : Rat := 0
  indentFirstLine : Rat := 0
  tabs : List Tab := []
  runs : List Run := []
deriving DecidableEq, Repr

/-- `struct Note` from miniDockReader.h. -/
structure Note where
  id : Int
  paragraphs : List Paragraph
deriving DecidableEq, Repr

/-- `std::unordered_map<std::string, Style>` is modelled as an association
list; `find` takes the first binding, `operator[]`-style insertion conses a
new binding in front (shadowing any older one). -/
abbrev StyleMap : Type := List (String × Style)

/-- The resolver cache `g_mergedStyleCache`, same representation. -/
abbrev Cache : Type := List (String × Style)

/-- `unordered_map::find` on the association-list model. -/
def lookupStr {α : Type} : List (String × α) → String → Option α
  | [], _ => none
  | (k, v) :: rest, key => if k = key then some v else lookupStr rest key

/-- `struct Document` from miniDockReader.h; the two `unordered_map<int,
Note>` members are association lists with newest-binding-first lookup. -/
structure Document where
  paragraphs : List Paragraph := []
  styles : StyleMap := []
  footnotes : List (Int × Note) := []
  endnotes : List (Int × Note) := []

-- ---------------------------------------------------------------
-- Numeric parsing primitives (models of the C standard library)
-- ---------------------------------------------------------------

/-- Characters skipped by `std::atoi` / `std::stof` before the number. -/
def isSpaceW (c : Char) : Bool :=
  c = ' ' || c = '\t' || c = '\n' || c = '\r'

/-- Value of a list of decimal digit characters. -/
def digitsVal (l : List Char) : Nat :=
  l.foldl (fun acc c => 10 * acc + (c.toNat - 48)) 0

/-- Models `std::atoi`: skip leading whitespace, optional sign, then the
longest run of decimal digits; 0 when there is none. Never throws.
(`int` overflow on adversarially long digit strings is undefined behaviour
in C++ and is not modelled; the embedded value is the exact integer.) -/
def atoiModel (s : String) : Int :=
  let l := s.toList.dropWhile isSpaceW
  match l with
  | '-' :: rest => -(digitsVal (rest.takeWhile Char.isDigit) : Int)
  | '+' :: rest => (digitsVal (rest.takeWhile Char.isDigit) : Int)
  | _ => (digitsVal (l.takeWhile Char.isDigit) : Int)

/-- Models `std::stof` on the decimal inputs that occur in WordprocessingML
attributes: skip leading whitespace, optional sign, decimal digits with an
optional fractional part. When no digit is found the C++ function throws
`std::invalid_argument`, modelled by `Res.exn`. (Exponent, hexadecimal and
inf/nan forms accepted by the full C++ grammar are not modelled; the claims
never involve them.) -/
def stofModel (s : String) : Res Rat :=
  let l := s.toList.dropWhile isSpaceW
  let sl : Rat × List Char :=
    match l with
    | '-' :: rest => (-1, rest)
    | '+' :: rest => (1, rest)
    | _ => (1, l)
  let ip := sl.2.takeWhile Char.isDigit
  let rest := sl.2.dropWhile Char.isDigit
  let fp := match rest with
    | '.' :: r2 => r2.takeWhile Char.isDigit
    | _ => []
  if ip.isEmpty && fp.isEmpty then .exn
  else .ok (sl.1 * ((digitsVal ip : Rat) + (digitsVal fp : Rat) / ((10 : Rat) ^ fp.length)))

/-- Value of a hexadecimal digit character, if any. -/
def hexVal (c : Char) : Option Nat :=
  if c.isDigit then some (c.toNat - 48)
  else if 'a' ≤ c && c ≤ 'f' then some (c.toNat - 87)
  else if 'A' ≤ c && c ≤ 'F' then some (c.toNat - 55)
  else none

/-- Value of a list of hexadecimal digit characters. -/
def hexDigitsVal (l : List Char) : Nat :=
  l.foldl (fun acc c => 16 * acc + ((hexVal c).getD 0)) 0

/-- Models `std::stoi(s, nullptr, 16)` on the two-character substrings fed
to it by `Color::Color`: skip whitespace, optional sign, then the longest
run of hexadecimal digits; throws (`Res.exn`) when there is none. -/
def stoi16 (s : String) : Res Int :=
  let l := s.toList.dropWhile isSpaceW
  let sl : Int × List Char :=
    match l with
    | '-' :: rest => (-1, rest)
    | '+' :: rest => (1, rest)
    | _ => (1, l)
  let hx := sl.2.takeWhile (fun c => (hexVal c).isSome)
  if hx.isEmpty then .exn
  else .ok (sl.1 * (hexDigitsVal hx : Int))

/-- The C++ `static_cast<uint8_t>` applied to the `std::stoi` result. -/
def byteOf (i : Int) : Nat := (i % 256).toNat

/-- The C++ `uint32_t ← int` conversion (`run.noteId = id`). -/
def uint32OfInt (i : Int) : Nat := (i % 4294967296).toNat

/-- `std::string::substr(start, len)` restricted to character counts. -/
def substrLen (s : String) (start len : Nat) : String :=
  String.mk ((s.toList.drop start).take len)

/-- `Color::Color(const std::string& hex)` from miniDockReader.h: 6 hex
digits give RGB with alpha 255, 8 give RGBA, any other length leaves the
default (0,0,0,255). A `std::stoi` failure propagates as an exception. -/
def colorFromHex (hex : String) : Res Color :=
  if hex.length = 6 then
    match stoi16 (substrLen hex 0 2), stoi16 (substrLen hex 2 2), stoi16 (substrLen hex 4 2) with
    | .ok r, .ok g, .ok b => .ok { r := byteOf r, g := byteOf g, b := byteOf b, a := 255 }
    | .exn, _, _ => .exn
    | _, .exn, _ => .exn
    | _, _, .exn => .exn
    | .fuel, _, _ => .fuel
    | _, .fuel, _ => .fuel
    | _, _, .fuel => .fuel
  else if hex.length = 8 then
    match stoi16 (substrLen hex 0 2), stoi16 (substrLen hex 2 2),
          stoi16 (substrLen hex 4 2), stoi16 (substrLen hex 6 2) with
    | .ok r, .ok g, .ok b, .ok a =>
        .ok { r := byteOf r, g := byteOf g, b := byteOf b, a := byteOf a }
    | .exn, _, _, _ => .exn
    | _, .exn, _, _ => .exn
    | _, _, .exn, _ => .exn
    | _, _, _, .exn => .exn
    | .fuel, _, _, _ => .fuel
    | _, .fuel, _, _ => .fuel
    | _, _, .fuel, _ => .fuel
    | _, _, _, .fuel => .fuel
  else .ok {}

-- ---------------------------------------------------------------
-- Style resolver (mergeStyleCached, miniDockReader.cpp lines 20-108)
-- ---------------------------------------------------------------

/-- The field-by-field overlay performed by `mergeStyleCached` on top of the
recursively merged base (miniDockReader.cpp lines 41-104). Each C++
`if (...) result.f = cur.f;` becomes the corresponding conditional field
update; the guarded `tabs` append (lines 91-94) appends `cur.tabs` when
non-empty, which is written with the same guard. `result.basedOn` is never
assigned in the source, so the base value is kept. -/
def overlayStyle (base cur : Style) : Style :=
  { styleType := if cur.styleType ≠ .Paragraph ∧ cur.styleType ≠ .Run
                 then cur.styleType else base.styleType
    basedOn := base.basedOn
    bold := if cur.bold then true else base.bold
    italic := if cur.italic then true else base.italic
    underline := if cur.underline then true else base.underline
    strikeThrough := if cur.strikeThrough then true else base.strikeThrough
    Subscript := if cur.Subscript then true else base.Subscript
    Superscript := if cur.Superscript then true else base.Superscript
    color := if ¬cur.color.isEmpty then cur.color else base.color
    backColor := if ¬cur.backColor.isEmpty then cur.backColor else base.backColor
    fontFamily := if cur.fontFamily ≠ "" then cur.fontFamily else base.fontFamily
    fontSize := if cur.fontSize > 0 then cur.fontSize else base.fontSize
    lineSpacing := if cur.lineSpacing > 0 then cur.lineSpacing else base.lineSpacing
    spaceBefore := if cur.spaceBefore > 0 then cur.spaceBefore else base.spaceBefore
    spaceAfter := if cur.spaceAfter > 0 then cur.spaceAfter else base.spaceAfter
    spaceBetweenSameStyle := if cur.spaceBetweenSameStyle then true
                             else base.spaceBetweenSameStyle
    justification := if cur.justification ≠ .Left then cur.justification
                     else base.justification
    rightDirection := if cur.rightDirection then true else base.rightDirection
    indentLeft := if cur.indentLeft > 0 then cur.indentLeft else base.indentLeft
    indentRight := if cur.indentRight > 0 then cur.indentRight else base.indentRight
    indentFirstLine := if cur.indentFirstLine > 0 then cur.indentFirstLine
                       else base.indentFirstLine
    tabs := if cur.tabs = [] then base.tabs else base.tabs ++ cur.tabs
    numbered := if cur.numbered then true else base.numbered
    numberFormat := if cur.numberFormat ≠ "" then cur.numberFormat else base.numberFormat
    numberStyle := if cur.numberStyle ≠ "" then cur.numberStyle else base.numberStyle
    level := if cur.level > 0 then cur.level else base.level }

/-- The tail of `mergeStyleCached` after the recursive call on `basedOn`:
overlay the current style onto the recursively merged base and insert the
result into the cache (miniDockReader.cpp lines 41-107). An exceptional or
non-terminating recursive call propagates. -/
def mergeFinish (styleId : String) (cur : Style) : Res (Style × Cache) → Res (Style × Cache)
  | .ok (base, c1) =>
      let merged := overlayStyle base cur
      .ok (merged, (styleId, merged) :: c1)
  | .exn => .exn
  | .fuel => .fuel

/-- `mergeStyleCached` (miniDockReader.cpp lines 20-108) with the global
cache made explicit and an explicit recursion-depth bound `fuel`. The C++
function: empty id returns the default style; a cache hit returns the cached
value; an unknown id caches and returns the default; otherwise the base is
the recursive merge of `basedOn` (or the default when `basedOn` is empty),
the current style is overlaid, and the result is inserted into the cache
only after the recursion has returned. -/
def mergeStyleFuel : Nat → StyleMap → Cache → String → Res (Style × Cache)
  | 0, _, _, _ => .fuel
  | fuel + 1, styles, cache, styleId =>
    if styleId = "" then .ok ({}, cache)
    else
      match lookupStr cache styleId with
      | some cached => .ok (cached, cache)
      | none =>
        match lookupStr styles styleId with
        | none => .ok ({}, (styleId, ({} : Style)) :: cache)
        | some cur =>
          mergeFinish styleId cur
            (if cur.basedOn = "" then .ok ({}, cache)
             else mergeStyleFuel fuel styles cache cur.basedOn)

/-- Length of the `basedOn` chain starting at `styleId`, following exactly
the recursion pattern of `mergeStyleCached` but without the cache: `some`
when the chain bottoms out within `fuel` links, `none` otherwise. A chain
is finite iff some fuel bound yields `some`. -/
def chainLen : Nat → StyleMap → String → Option Nat
  | 0, _, _ => none
  | fuel + 1, styles, styleId =>
    if styleId = "" then some 0
    else
      match lookupStr styles styleId with
      | none => some 0
      | some cur =>
        if cur.basedOn = "" then some 1
        else (chainLen fuel styles cur.basedOn).map (· + 1)

/-- The C++ recursion of `mergeStyleCached` diverges on this map and id:
every recursion-depth bound is exhausted, starting from the empty cache. -/
def mergeDiverges (styles : StyleMap) (styleId : String) : Prop :=
  ∀ fuel : Nat, mergeStyleFuel fuel styles [] styleId = .fuel

/-- A two-element `basedOn` cycle: A is based on B and B on A. -/
def cycleStyles : StyleMap :=
  [("A", { basedOn := "B" }), ("B", { basedOn := "A" })]

-- ---------------------------------------------------------------
-- XML DOM model (interface of tinyxml2 as used by the reader)
-- ---------------------------------------------------------------

/-- A DOM element as produced by the external XML parser: tag name,
attribute list, direct text content (`GetText`, when the first child is a
text node), and child elements in document order. -/
inductive Xml where
  | elem (name : String) (attrs : List (String × String)) (text : Option String)
      (children : List Xml)

/-- Tag name of an element. -/
def Xml.name : Xml → String
  | .elem n _ _ _ => n

/-- `XMLElement::Attribute(name)`: the attribute value, if present. -/
def Xml.attr : Xml → String → Option String
  | .elem _ attrs _ _, key => lookupStr attrs key

/-- `XMLElement::GetText()`. -/
def Xml.getText : Xml → Option String
  | .elem _ _ t _ => t

/-- Child elements of an element. -/
def Xml.children : Xml → List Xml
  | .elem _ _ _ cs => cs

/-- `XMLElement::FirstChildElement(name)`: first child with the tag. -/
def Xml.firstChildElem (x : Xml) (tag : String) : Option Xml :=
  x.children.find? (fun c => c.name == tag)

/-- The `FirstChildElement(name)` / `NextSiblingElement(name)` iteration:
the children carrying the tag, in document order. -/
def Xml.childrenNamed (x : Xml) (tag : String) : List Xml :=
  x.children.filter (fun c => c.name == tag)

/-- `el.attr` for an optional element combined with a fallible parse of the
attribute value: an absent element or absent attribute yields `none` (no
assignment in the C++), a failing parse propagates the exception. -/
def resOptAttrF {α : Type} (el : Option Xml) (key : String) (f : String → Res α) :
    Res (Option α) :=
  match el with
  | none => .ok none
  | some e =>
    match e.attr key with
    | none => .ok none
    | some v =>
      match f v with
      | .ok a => .ok (some a)
      | .exn => .exn
      | .fuel => .fuel

/-- The jc-value mapping used both by `parseStyles` and `readParagraph`:
"center", "right", "both" map to the respective alignments, anything else
leaves the current value. -/
def jcOf (v : String) (j : Justification) : Justification :=
  if v = "center" then .Center
  else if v = "right" then .Right
  else if v = "both" then .Justify
  else j

/-- One `<w:tab>` element (shared by the `<w:tabs>` loops of `parseStyles`
and `readParagraph`): `w:pos / 20` as position, the first character of
`w:val` as alignment, `w:leader` as leader. A missing `w:val` keeps the
default; tinyxml2 hands `Attribute` results as C strings, so an empty
`w:val` yields the NUL character. -/
def parseTab (tab : Xml) : Res Tab :=
  match resOptAttrF (some tab) "w:pos" stofModel with
  | .ok posOpt =>
    .ok { position := match posOpt with | some q => q / 20 | none => 0
          alignment := match tab.attr "w:val" with
            | some v => v.toList.headD (Char.ofNat 0)
            | none => 'L'
          leader := (tab.attr "w:leader").getD "" }
  | .exn => .exn
  | .fuel => .fuel

/-- The `<w:tab>` loop body folded over the tab elements. -/
def parseTabList : List Xml → Res (List Tab)
  | [] => .ok []
  | t :: rest =>
    match parseTab t, parseTabList rest with
    | .ok tb, .ok tbs => .ok (tb :: tbs)
    | .exn, _ => .exn
    | _, .exn => .exn
    | .fuel, _ => .fuel
    | _, .fuel => .fuel

-- ---------------------------------------------------------------
-- Styles parsing (parseStyles, miniDockReader.cpp lines 204-356)
-- ---------------------------------------------------------------

/-- The `<w:rPr>` block of `parseStyles` (lines 235-264): presence of
`w:b`/`w:i`/`w:u`/`w:strike`/`w:subscript`/`w:superscript` sets the flags;
`w:color w:val` and `w:shd w:fill` parse colors; `w:rFonts w:ascii` the
font family; `w:sz w:val` is `stof`-parsed half-points divided by 2. -/
def parseStyleRPr (rPr : Xml) (st0 : Style) : Res Style :=
  let st : Style :=
    { st0 with
      bold := if (rPr.firstChildElem "w:b").isSome then true else st0.bold
      italic := if (rPr.firstChildElem "w:i").isSome then true else st0.italic
      underline := if (rPr.firstChildElem "w:u").isSome then true else st0.underline
      strikeThrough := if (rPr.firstChildElem "w:strike").isSome then true
                       else st0.strikeThrough
      Subscript := if (rPr.firstChildElem "w:subscript").isSome then true
                   else st0.Subscript
      Superscript := if (rPr.firstChildElem "w:superscript").isSome then true
                     else st0.Superscript }
  match resOptAttrF (rPr.firstChildElem "w:color") "w:val" colorFromHex,
        resOptAttrF (rPr.firstChildElem "w:shd") "w:fill" colorFromHex,
        resOptAttrF (rPr.firstChildElem "w:sz") "w:val" stofModel with
  | .ok copt, .ok shopt, .ok szopt =>
    .ok { st with
          color := copt.getD st.color
          backColor := shopt.getD st.backColor
          fontFamily := ((rPr.firstChildElem "w:rFonts").bind (fun e => e.attr "w:ascii")).getD
            st.fontFamily
          fontSize := match szopt with | some q => q / 2 | none => st.fontSize }
  | .exn, _, _ => .exn
  | _, .exn, _ => .exn
  | _, _, .exn => .exn
  | .fuel, _, _ => .fuel
  | _, .fuel, _ => .fuel
  | _, _, .fuel => .fuel

/-- The `<w:spacing>` handling of the `parseStyles` paragraph block:
`w:line / 240`, `w:before / 20`, `w:after / 20`, `w:lineRule = "exact"`
sets `spaceBetweenSameStyle`. -/
def styleSpacing (pPr : Xml) (st : Style) : Res Style :=
  match pPr.firstChildElem "w:spacing" with
  | none => .ok st
  | some sp =>
    match resOptAttrF (some sp) "w:line" stofModel,
          resOptAttrF (some sp) "w:before" stofModel,
          resOptAttrF (some sp) "w:after" stofModel with
    | .ok l, .ok b, .ok a =>
      .ok { st with
            lineSpacing := match l with | some q => q / 240 | none => st.lineSpacing
            spaceBefore := match b with | some q => q / 20 | none => st.spaceBefore
            spaceAfter := match a with | some q => q / 20 | none => st.spaceAfter
            spaceBetweenSameStyle := if sp.attr "w:lineRule" = some "exact" then true
                                     else st.spaceBetweenSameStyle }
    | .exn, _, _ => .exn
    | _, .exn, _ => .exn
    | _, _, .exn => .exn
    | .fuel, _, _ => .fuel
    | _, .fuel, _ => .fuel
    | _, _, .fuel => .fuel

/-- The `<w:ind>` handling of the `parseStyles` paragraph block: `w:left`,
`w:right`, `w:firstLine` divided by 20. -/
def styleInd (pPr : Xml) (st : Style) : Res Style :=
  match pPr.firstChildElem "w:ind" with
  | none => .ok st
  | some ind =>
    match resOptAttrF (some ind) "w:left" stofModel,
          resOptAttrF (some ind) "w:right" stofModel,
          resOptAttrF (some ind) "w:firstLine" stofModel with
    | .ok l, .ok r, .ok f =>
      .ok { st with
            indentLeft := match l with | some q => q / 20 | none => st.indentLeft
            indentRight := match r with | some q => q / 20 | none => st.indentRight
            indentFirstLine := match f with | some q => q / 20 | none => st.indentFirstLine }
    | .exn, _, _ => .exn
    | _, .exn, _ => .exn
    | _, _, .exn => .exn
    | .fuel, _, _ => .fuel
    | _, .fuel, _ => .fuel
    | _, _, .fuel => .fuel

/-- The `<w:tabs>` handling of the `parseStyles` paragraph block: each
`<w:tab>` is appended to the style's tab list. -/
def styleTabs (pPr : Xml) (st : Style) : Res Style :=
  match pPr.firstChildElem "w:tabs" with
  | none => .ok st
  | some tabs =>
    match parseTabList (tabs.childrenNamed "w:tab") with
    | .ok ts => .ok { st with tabs := st.tabs ++ ts }
    | .exn => .exn
    | .fuel => .fuel

/-- The `<w:pPr>` block of `parseStyles` (lines 267-349): outline level,
numbering, spacing, indentation, justification, tabs, bidi — in source
order, with the same numeric conversions and `std::stof` failures
propagating as exceptions. -/
def parseStylePPr (pPr : Xml) (st0 : Style) : Res Style :=
  let st : Style :=
    match (pPr.firstChildElem "w:outlineLvl").bind (fun e => e.attr "w:val") with
    | some v => { st0 with level := atoiModel v }
    | none => st0
  let st : Style :=
    match pPr.firstChildElem "w:numPr" with
    | none => st
    | some numPr =>
      let st := match (numPr.firstChildElem "w:numId").bind (fun e => e.attr "w:val") with
        | some _ => { st with numberFormat := "decimal" }
        | none => st
      let st := match (numPr.firstChildElem "w:ilvl").bind (fun e => e.attr "w:val") with
        | some v => { st with level := atoiModel v }
        | none => st
      let st := match (numPr.firstChildElem "w:numStyle").bind (fun e => e.attr "w:val") with
        | some v => { st with numberStyle := v }
        | none => st
      { st with numbered := true }
  Res.bind (styleSpacing pPr st) fun st =>
  Res.bind (styleInd pPr st) fun st =>
  let st : Style :=
    match (pPr.firstChildElem "w:jc").bind (fun e => e.attr "w:val") with
    | some v => { st with justification := jcOf v st.justification }
    | none => st
  Res.bind (styleTabs pPr st) fun st =>
  .ok (if (pPr.firstChildElem "w:bidi").isSome then { st with rightDirection := true } else st)

/-- One `<w:style>` element of styles.xml (lines 217-352 of
miniDockReader.cpp, the body of the style loop after the `w:styleId`
check): `w:type` attribute ("paragraph" vs anything else), `w:basedOn`,
the `<w:rPr>` character block, then the `<w:pPr>` paragraph block. -/
def parseStyleElem (s : Xml) : Res Style :=
  let st : Style := {}
  let st : Style :=
    match s.attr "w:type" with
    | some t => { st with styleType := if t = "paragraph" then .Paragraph else .Run }
    | none => st
  let st : Style :=
    match (s.firstChildElem "w:basedOn").bind (fun e => e.attr "w:val") with
    | some v => { st with basedOn := v }
    | none => st
  Res.bind
    (match s.firstChildElem "w:rPr" with
     | none => .ok st
     | some rPr => parseStyleRPr rPr st)
    fun st =>
      match s.firstChildElem "w:pPr" with
      | none => .ok st
      | some pPr => parseStylePPr pPr st

/-- The `<w:style>` loop of `parseStyles`: styles without `w:styleId` are
skipped; `map.emplace` keeps the first binding of a duplicated id, which on
the association list (first-binding lookup) is appending at the end. -/
def parseStyleList : List Xml → Res StyleMap
  | [] => .ok []
  | s :: rest =>
    match s.attr "w:styleId" with
    | none => parseStyleList rest
    | some id =>
      match parseStyleElem s, parseStyleList rest with
      | .ok st, .ok m => .ok ((id, st) :: m)
      | .exn, _ => .exn
      | _, .exn => .exn
      | .fuel, _ => .fuel
      | _, .fuel => .fuel

/-- `parseStyles` (miniDockReader.cpp lines 204-356). The argument is the
`<w:styles>` root element located by the external XML parser; empty or
unparsable styles.xml, or a missing `w:styles` root, are all `none` and
yield the empty map. -/
def parseStyles (root : Option Xml) : Res StyleMap :=
  match root with
  | none => .ok []
  | some r => parseStyleList (r.childrenNamed "w:style")

-- ---------------------------------------------------------------
-- Run coalescer (sameRunStyle / mergeAdjacentRuns, lines 475-516)
-- ---------------------------------------------------------------

/-- `sameRunStyle` (miniDockReader.cpp lines 475-489): the style
fingerprint compares `style`, `lang`, the six boolean flags, the two
colors, `fontFamily` and `fontSize` — and nothing else (in particular
neither `text` nor `noteId`). -/
def sameRunStyle (a b : Run) : Bool :=
  a.style == b.style &&
  a.lang == b.lang &&
  a.bold == b.bold &&
  a.italic == b.italic &&
  a.underline == b.underline &&
  a.strike == b.strike &&
  a.color == b.color &&
  a.backColor == b.backColor &&
  a.fontFamily == b.fontFamily &&
  a.fontSize == b.fontSize &&
  a.subscript == b.subscript &&
  a.superscript == b.superscript

/-- The loop of `mergeAdjacentRuns` with `last` the current final element
of the merged vector: a fingerprint-equal incoming run has its text
appended to `last`, otherwise `last` is emitted and the incoming run
becomes the new final element. -/
def mergeRunsAux (last : Run) : List Run → List Run
  | [] => [last]
  | r :: rest =>
    if sameRunStyle last r then mergeRunsAux { last with text := last.text ++ r.text } rest
    else last :: mergeRunsAux r rest

/-- `mergeAdjacentRuns` (miniDockReader.cpp lines 495-516). The C++
early-returns on fewer than two runs, which coincides with running the loop
from the first element. -/
def mergeAdjacentRuns : List Run → List Run
  | [] => []
  | r :: rest => mergeRunsAux r rest

/-- In-order concatenation of the run texts of a paragraph. -/
def concatTexts : List Run → String
  | [] => ""
  | r :: rest => r.text ++ concatTexts rest

-- ---------------------------------------------------------------
-- Paragraph/run reader (readParagraph, miniDockReader.cpp 524-784)
-- ---------------------------------------------------------------

/-- The footnote-reference test at the top of the run loop (lines 657-669):
the run's first `<w:footnoteReference>` child together with its `w:id`
attribute, when both exist. Only with both present does the reader take the
note branch. -/
def noteRefVal (r : Xml) : Option (Xml × String) :=
  (r.firstChildElem "w:footnoteReference").bind fun fr =>
    (fr.attr "w:id").map fun v => (fr, v)

/-- `find_first_not_of(' ')` / `find_last_not_of(' ')` based trimming of
lines 689-699: strip ASCII spaces from both ends; an all-space text becomes
empty. -/
def trimSpaces (s : String) : String :=
  String.mk (((s.toList.dropWhile (· = ' ')).reverse.dropWhile (· = ' ')).reverse)

/-- Text extraction of the normal run branch (lines 671-701): the text of
the first `<w:t>` child (empty when absent), kept verbatim under
`xml:space="preserve"` and space-trimmed otherwise. -/
def extractRunText (r : Xml) : Run :=
  let text0 : String :=
    match r.firstChildElem "w:t" with
    | some t => (t.getText).getD ""
    | none => ""
  let text1 : String :=
    match r.firstChildElem "w:t" with
    | some t => if t.attr "xml:space" = some "preserve" then text0 else trimSpaces text0
    | none => text0
  { text := text1 }

/-- Application of the resolved run style to a run (lines 719-738): sticky
booleans, colors and font family only when non-empty, font size only when
positive. The style's `strikeThrough` feeds the run's `strike`. Nothing
else — in particular neither `style` nor `noteId` nor `text` — is
touched. -/
def applyStyleToRun (rSt : Style) (run : Run) : Run :=
  { run with
    bold := if rSt.bold then true else run.bold
    italic := if rSt.italic then true else run.italic
    underline := if rSt.underline then true else run.underline
    strike := if rSt.strikeThrough then true else run.strike
    subscript := if rSt.Subscript then true else run.subscript
    superscript := if rSt.Superscript then true else run.superscript
    color := if ¬rSt.color.isEmpty then rSt.color else run.color
    backColor := if ¬rSt.backColor.isEmpty then rSt.backColor else run.backColor
    fontFamily := if rSt.fontFamily ≠ "" then rSt.fontFamily else run.fontFamily
    fontSize := if rSt.fontSize > 0 then rSt.fontSize else run.fontSize }

/-- The direct `<w:rPr>` property overlay of the run loop (lines 740-778):
`w:lang`, the presence flags, colors, font family and `stof`-parsed
half-point size, each overriding unconditionally when present. Color and
size parse failures propagate as exceptions, in source order. -/
def applyDirectRunProps (rPr : Xml) (run : Run) : Res Run :=
  match resOptAttrF (rPr.firstChildElem "w:color") "w:val" colorFromHex with
  | .exn => .exn
  | .fuel => .fuel
  | .ok copt =>
  match resOptAttrF (rPr.firstChildElem "w:shd") "w:fill" colorFromHex with
  | .exn => .exn
  | .fuel => .fuel
  | .ok shopt =>
  match resOptAttrF (rPr.firstChildElem "w:sz") "w:val" stofModel with
  | .exn => .exn
  | .fuel => .fuel
  | .ok szopt =>
    .ok { run with
          lang := ((rPr.firstChildElem "w:lang").bind (fun e => e.attr "w:val")).getD run.lang
          bold := if (rPr.firstChildElem "w:b").isSome then true else run.bold
          italic := if (rPr.firstChildElem "w:i").isSome then true else run.italic
          underline := if (rPr.firstChildElem "w:u").isSome then true else run.underline
          strike := if (rPr.firstChildElem "w:strike").isSome then true else run.strike
          subscript := if (rPr.firstChildElem "w:subscript").isSome then true
                       else run.subscript
          superscript := if (rPr.firstChildElem "w:superscript").isSome then true
                         else run.superscript
          color := copt.getD run.color
          backColor := shopt.getD run.backColor
          fontFamily := ((rPr.firstChildElem "w:rFonts").bind (fun e => e.attr "w:ascii")).getD
            run.fontFamily
          fontSize := match szopt with | some q => q / 2 | none => run.fontSize }

/-- The run style id of the `<w:rPr>` branch (lines 706-714): the
`<w:rStyle w:val>` value, replaced by the paragraph's `pStyleId` when the
element or attribute is absent or the value is empty (`rStyleId.empty()`
in the C++). -/
def rStyleIdOf (rPr : Xml) (pStyleId : String) : String :=
  if ((rPr.firstChildElem "w:rStyle").bind (fun e => e.attr "w:val")).getD "" = ""
  then pStyleId
  else ((rPr.firstChildElem "w:rStyle").bind (fun e => e.attr "w:val")).getD ""

/-- The body of the run loop of `readParagraph` (lines 654-781) for one
`<w:r>` element. A `<w:footnoteReference>` child with a `w:id` attribute
short-circuits into a note run (`noteId` is the `atoi` of the attribute
converted to `uint32_t`, the text is the element's text or empty) with no
further property extraction. Otherwise the text is extracted, and only when
a `<w:rPr>` child exists is the run style id read (`rStyleIdOf`), resolved
through the cache, applied, and overlaid with the direct properties. -/
def readRunElem (fuel : Nat) (styles : StyleMap) (pStyleId : String) (cache : Cache)
    (r : Xml) : Res (Run × Cache) :=
  match noteRefVal r with
  | some (fr, v) =>
    .ok ({ noteId := uint32OfInt (atoiModel v), text := (fr.getText).getD "" }, cache)
  | none =>
    match r.firstChildElem "w:rPr" with
    | none => .ok (extractRunText r, cache)
    | some rPr =>
      match mergeStyleFuel fuel styles cache (rStyleIdOf rPr pStyleId) with
      | .ok (rSt, cache1) =>
        match applyDirectRunProps rPr (applyStyleToRun rSt (extractRunText r)) with
        | .ok run2 => .ok (run2, cache1)
        | .exn => .exn
        | .fuel => .fuel
      | .exn => .exn
      | .fuel => .fuel

/-- The run loop folded over the `<w:r>` children, threading the resolver
cache and collecting the runs in order. -/
def readRuns (fuel : Nat) (styles : StyleMap) (pStyleId : String) :
    Cache → List Xml → Res (List Run × Cache)
  | cache, [] => .ok ([], cache)
  | cache, r :: rest =>
    match readRunElem fuel styles pStyleId cache r with
    | .ok (run, c1) =>
      match readRuns fuel styles pStyleId c1 rest with
      | .ok (runs, c2) => .ok (run :: runs, c2)
      | .exn => .exn
      | .fuel => .fuel
    | .exn => .exn
    | .fuel => .fuel

/-- The direct `<w:numPr>` overlay of `readParagraph` (lines 565-580):
sets `numbered`, then `numId`/`ilvl`/`numStyle` in source order. -/
def overlayNumPr (pPr : Xml) (para0 : Paragraph) : Paragraph :=
  match pPr.firstChildElem "w:numPr" with
  | none => para0
  | some numPr =>
    let para := { para0 with numbered := true }
    let para := match (numPr.firstChildElem "w:numId").bind (fun e => e.attr "w:val") with
      | some _ => { para with numberFormat := "decimal" }
      | none => para
    let para := match (numPr.firstChildElem "w:ilvl").bind (fun e => e.attr "w:val") with
      | some v => { para with level := atoiModel v }
      | none => para
    match (numPr.firstChildElem "w:numStyle").bind (fun e => e.attr "w:val") with
    | some v => { para with numberStyle := v }
    | none => para

/-- The direct `<w:ind>` overlay of `readParagraph` (lines 600-608). -/
def overlayInd (pPr : Xml) (para : Paragraph) : Res Paragraph :=
  match pPr.firstChildElem "w:ind" with
  | none => .ok para
  | some ind =>
    match resOptAttrF (some ind) "w:left" stofModel,
          resOptAttrF (some ind) "w:right" stofModel,
          resOptAttrF (some ind) "w:firstLine" stofModel with
    | .ok l, .ok r, .ok f =>
      .ok { para with
            indentLeft := match l with | some q => q / 20 | none => para.indentLeft
            indentRight := match r with | some q => q / 20 | none => para.indentRight
            indentFirstLine := match f with | some q => q / 20 | none => para.indentFirstLine }
    | .exn, _, _ => .exn
    | _, .exn, _ => .exn
    | _, _, .exn => .exn
    | .fuel, _, _ => .fuel
    | _, .fuel, _ => .fuel
    | _, _, .fuel => .fuel

/-- The direct `<w:spacing>` overlay of `readParagraph` (lines 611-625). -/
def overlaySpacing (pPr : Xml) (para : Paragraph) : Res Paragraph :=
  match pPr.firstChildElem "w:spacing" with
  | none => .ok para
  | some sp =>
    match resOptAttrF (some sp) "w:line" stofModel,
          resOptAttrF (some sp) "w:before" stofModel,
          resOptAttrF (some sp) "w:after" stofModel with
    | .ok l, .ok b, .ok a =>
      .ok { para with
            lineSpacing := match l with | some q => q / 240 | none => para.lineSpacing
            spaceBefore := match b with | some q => q / 20 | none => para.spaceBefore
            spaceAfter := match a with | some q => q / 20 | none => para.spaceAfter
            spaceBetweenSameStyle := if sp.attr "w:lineRule" = some "exact" then true
                                     else para.spaceBetweenSameStyle }
    | .exn, _, _ => .exn
    | _, .exn, _ => .exn
    | _, _, .exn => .exn
    | .fuel, _, _ => .fuel
    | _, .fuel, _ => .fuel
    | _, _, .fuel => .fuel

/-- The direct `<w:tabs>` overlay of `readParagraph` (lines 628-643): the
inherited list is cleared and replaced by the parsed tab stops. -/
def overlayTabs (pPr : Xml) (para : Paragraph) : Res Paragraph :=
  match pPr.firstChildElem "w:tabs" with
  | none => .ok para
  | some tabs =>
    match parseTabList (tabs.childrenNamed "w:tab") with
    | .ok ts => .ok { para with tabs := ts }
    | .exn => .exn
    | .fuel => .fuel

/-- The `<w:pPr>` branch of `readParagraph` (lines 530-644): read the
`w:pStyle` value as `pStyleId` (left empty when absent), resolve the style
named `pStyleId` — or `"Normal"` when that is empty — through the cache,
seed the paragraph's fields from it (`style` gets the raw `pStyleId`;
`lineSpacing` only when the resolved value is positive), then overlay the
direct `numPr`/`jc`/`bidi`/`ind`/`spacing`/`tabs` properties. Returns the
seeded paragraph, the raw `pStyleId`, and the updated cache. -/
def readParaProps (fuel : Nat) (styles : StyleMap) (cache : Cache) (pPr : Xml) :
    Res (Paragraph × String × Cache) :=
  let pStyleId := ((pPr.firstChildElem "w:pStyle").bind (fun e => e.attr "w:val")).getD ""
  match mergeStyleFuel fuel styles cache (if pStyleId = "" then "Normal" else pStyleId) with
  | .ok (paraStyle, c1) =>
    let para : Paragraph :=
      { numbered := paraStyle.numbered
        numberFormat := paraStyle.numberFormat
        numberStyle := paraStyle.numberStyle
        level := paraStyle.level
        justification := paraStyle.justification
        rightDirection := paraStyle.rightDirection
        style := pStyleId
        lineSpacing := if paraStyle.lineSpacing > 0 then paraStyle.lineSpacing else 1
        spaceBefore := paraStyle.spaceBefore
        spaceAfter := paraStyle.spaceAfter
        spaceBetweenSameStyle := paraStyle.spaceBetweenSameStyle
        indentLeft := paraStyle.indentLeft
        indentRight := paraStyle.indentRight
        indentFirstLine := paraStyle.indentFirstLine
        tabs := paraStyle.tabs
        runs := [] }
    let para := overlayNumPr pPr para
    let para := match (pPr.firstChildElem "w:jc").bind (fun e => e.attr "w:val") with
      | some v => { para with justification := jcOf v para.justification }
      | none => para
    let para := if (pPr.firstChildElem "w:bidi").isSome
      then { para with rightDirection := true } else para
    Res.bind (overlayInd pPr para) fun para =>
    Res.bind (overlaySpacing pPr para) fun para =>
    Res.bind (overlayTabs pPr para) fun para =>
    .ok (para, pStyleId, c1)
  | .exn => .exn
  | .fuel => .fuel

/-- The first half of `readParagraph`: the `<w:pPr>` branch when the child
exists, the default paragraph and empty `pStyleId` otherwise. -/
def readParaPart (fuel : Nat) (styles : StyleMap) (cache : Cache) (p : Xml) :
    Res (Paragraph × String × Cache) :=
  match p.firstChildElem "w:pPr" with
  | none => .ok ({}, "", cache)
  | some pPr => readParaProps fuel styles cache pPr

/-- `readParagraph` (miniDockReader.cpp lines 524-784): handle the
`<w:pPr>` child when present (a paragraph without one keeps the default
fields and an empty `pStyleId`); default `pStyleId` to `"Normal"` (lines
647-649); resolve it once more (line 650 — the C++ discards the value but
the call still updates the cache); read the runs with that `pStyleId`;
coalesce adjacent runs. -/
def readParagraph (fuel : Nat) (styles : StyleMap) (cache : Cache) (p : Xml) :
    Res (Paragraph × Cache) :=
  match readParaPart fuel styles cache p with
  | .ok (para0, pStyleId0, c1) =>
    match mergeStyleFuel fuel styles c1 (if pStyleId0 = "" then "Normal" else pStyleId0) with
    | .ok (_, c2) =>
      match readRuns fuel styles (if pStyleId0 = "" then "Normal" else pStyleId0) c2
          (p.childrenNamed "w:r") with
      | .ok (runs, c3) => .ok ({ para0 with runs := mergeAdjacentRuns runs }, c3)
      | .exn => .exn
      | .fuel => .fuel
    | .exn => .exn
    | .fuel => .fuel
  | .exn => .exn
  | .fuel => .fuel

-- ---------------------------------------------------------------
-- Notes and document assembly (lines 366-467, 792-884)
-- ---------------------------------------------------------------

/-- The `<w:p>` loop shared by the notes parsers and the main document
parser: read each paragraph, threading the cache. -/
def readParagraphList (fuel : Nat) (styles : StyleMap) :
    Cache → List Xml → Res (List Paragraph × Cache)
  | cache, [] => .ok ([], cache)
  | cache, p :: rest =>
    match readParagraph fuel styles cache p with
    | .ok (para, c1) =>
      match readParagraphList fuel styles c1 rest with
      | .ok (paras, c2) => .ok (para :: paras, c2)
      | .exn => .exn
      | .fuel => .fuel
    | .exn => .exn
    | .fuel => .fuel

/-- The note-entry loop shared by `parseFootnotes` and `parseEndnotes`
(lines 381-410 / 435-464): entries without `w:id` are skipped, as are
`separator` and `continuationSeparator` entries; the rest contribute a
`Note` with the `atoi`-parsed id and the paragraphs of their `<w:p>`
children. `map[id] = Note{...}` overwrites, so on the first-binding-wins
association list a later duplicate id must shadow an earlier one: the
binding of the current entry goes after those of the later entries. -/
def parseNoteList (fuel : Nat) (styles : StyleMap) :
    Cache → List Xml → Res (List (Int × Note) × Cache)
  | cache, [] => .ok ([], cache)
  | cache, fn :: rest =>
    match fn.attr "w:id" with
    | none => parseNoteList fuel styles cache rest
    | some idAttr =>
      if fn.attr "w:type" = some "separator" ∨ fn.attr "w:type" = some "continuationSeparator"
      then parseNoteList fuel styles cache rest
      else
        match readParagraphList fuel styles cache (fn.childrenNamed "w:p") with
        | .ok (paras, c1) =>
          match parseNoteList fuel styles c1 rest with
          | .ok (m, c2) =>
            .ok (m ++ [(atoiModel idAttr, { id := atoiModel idAttr, paragraphs := paras })], c2)
          | .exn => .exn
          | .fuel => .fuel
        | .exn => .exn
        | .fuel => .fuel

/-- `parseFootnotes` (lines 366-413): the argument is the `<w:footnotes>`
root located by the XML parser (`none` for a missing or empty part). -/
def parseFootnotes (fuel : Nat) (styles : StyleMap) (cache : Cache) (root : Option Xml) :
    Res (List (Int × Note) × Cache) :=
  match root with
  | none => .ok ([], cache)
  | some r => parseNoteList fuel styles cache (r.childrenNamed "w:footnote")

/-- `parseEndnotes` (lines 420-467), symmetric over `<w:endnote>`. -/
def parseEndnotes (fuel : Nat) (styles : StyleMap) (cache : Cache) (root : Option Xml) :
    Res (List (Int × Note) × Cache) :=
  match root with
  | none => .ok ([], cache)
  | some r => parseNoteList fuel styles cache (r.childrenNamed "w:endnote")

/-- `parseMainDocument` (lines 792-819): locate `<w:body>` under the
`<w:document>` root (the argument; `none` when missing) and read its
`<w:p>` children. -/
def parseMainDocument (fuel : Nat) (styles : StyleMap) (cache : Cache) (root : Option Xml) :
    Res (List Paragraph × Cache) :=
  match root with
  | none => .ok ([], cache)
  | some r =>
    match r.firstChildElem "w:body" with
    | none => .ok ([], cache)
    | some body => readParagraphList fuel styles cache (body.childrenNamed "w:p")

/-- The shared tail of `readDocument` and `readDocumentFromMemory`
(miniDockReader.cpp lines 825-884) after the external ZIP extraction and
XML parse: the four arguments are the root elements of styles.xml,
footnotes.xml, endnotes.xml and document.xml (`none` when the part is
missing, empty or without the expected root). The resolver cache starts
cleared; styles are parsed first, then footnotes, endnotes and the main
body, threading the cache. `Res.exn` is a C++ exception escaping the
user-facing call. -/
def readDocumentFromParts (fuel : Nat)
    (stylesRoot fnRoot enRoot docRoot : Option Xml) : Res Document :=
  Res.bind (parseStyles stylesRoot) fun styles =>
  Res.bind (parseFootnotes fuel styles [] fnRoot) fun fns =>
  Res.bind (parseEndnotes fuel styles fns.2 enRoot) fun ens =>
  Res.bind (parseMainDocument fuel styles ens.2 docRoot) fun paras =>
  .ok { paragraphs := paras.1, styles := styles, footnotes := fns.1, endnotes := ens.1 }

-- ---------------------------------------------------------------
-- Concrete inputs used by counterexamples and witnesses
-- ---------------------------------------------------------------

/-- A styles.xml whose single style carries `<w:sz w:val="abc"/>`: a
syntactically well-formed part with one malformed numeric attribute. -/
def badStylesXml : Xml :=
  .elem "w:styles" [] none
    [.elem "w:style" [("w:styleId", "S")] none
      [.elem "w:rPr" [] none
        [.elem "w:sz" [("w:val", "abc")] none []]]]

/-- A `<w:r>` holding only a footnote reference with the given id. -/
def noteRefRun (id : String) : Xml :=
  .elem "w:r" [] none [.elem "w:footnoteReference" [("w:id", id)] none []]

/-- A paragraph with two adjacent footnote-reference runs (ids 1 and 2). -/
def twoNoteRefsPara : Xml := .elem "w:p" [] none [noteRefRun "1", noteRefRun "2"]

/-- A `<w:p/>` with no `<w:pPr>` child and no runs. -/
def pNoPPr : Xml := .elem "w:p" [] none []

/-- A style map defining `Normal` as centered. -/
def stylesC5 : StyleMap := [("Normal", { justification := .Center })]

/-- A `<w:r>` with text but no `<w:rPr>` element. -/
def rNoRPr : Xml := .elem "w:r" [] none [.elem "w:t" [] (some "x") []]

/-- A style map defining a bold style `S`. -/
def stylesBoldS : StyleMap := [("S", { bold := true })]

/-- A `<w:r>` holding only an endnote reference with id 7 and text. -/
def endnoteRun : Xml :=
  .elem "w:r" [] none [.elem "w:endnoteReference" [("w:id", "7")] (some "x") []]

/-- A paragraph with a single footnote-reference run whose `w:id` is 0 and
whose reference element carries the marker text `*`. -/
def pRefZero : Xml :=
  .elem "w:p" [] none
    [.elem "w:r" [] none [.elem "w:footnoteReference" [("w:id", "0")] (some "*") []]]

/-- A style whose `fontSize` is set and whose `lineSpacing` carries the
value 0 (only reachable through an explicit `w:line="0"`). -/
def c4style : Style := { fontSize := 5, lineSpacing := 0 }

/-- A one-style map for the C4 witness. -/
def c4styles : StyleMap := [("A", c4style)]

/-- A two-link acyclic `basedOn` chain for the C1 witness. -/
def c1styles : StyleMap :=
  [("A", { basedOn := "B", bold := true }), ("B", { italic := true })]

/-- A `<w:pPr>` carrying only a `<w:pStyle w:val="T"/>`. -/
def c5wPPr : Xml := .elem "w:pPr" [] none [.elem "w:pStyle" [("w:val", "T")] none []]

/-- A paragraph whose only property is the style reference `T`. -/
def c5wPara : Xml := .elem "w:p" [] none [c5wPPr]

/-- Styles for the C5 witness: `T` is right-aligned with `lineSpacing` 0
and a positive `spaceBefore`. -/
def c5wStyles : StyleMap :=
  [("T", { justification := .Right, lineSpacing := 0, spaceBefore := 3 })]

/-- The merged `T` of `c5wStyles` (overlay on the all-default base). -/
def c5wResolved : Style := overlayStyle {} { justification := .Right, lineSpacing := 0, spaceBefore := 3 }

/-- A `<w:rPr>` with an italic flag and no `<w:rStyle>`. -/
def c6wRPr : Xml := .elem "w:rPr" [] none [.elem "w:i" [] none []]

/-- A run with text and a `<w:rPr>` that has no `<w:rStyle>`. -/
def c6wRun : Xml := .elem "w:r" [] none [.elem "w:t" [] (some " hi ") [], c6wRPr]

/-- A footnote reference element with id 3 and marker text. -/
def c7wRef : Xml := .elem "w:footnoteReference" [("w:id", "3")] (some "*") []

/-- A run holding only `c7wRef`. -/
def c7wRun : Xml := .elem "w:r" [] none [c7wRef]

/-- A paragraph with one run styled through `<w:rStyle w:val="S"/>`. -/
def c10wPara : Xml :=
  .elem "w:p" [] none
    [.elem "w:r" [] none
      [.elem "w:t" [] (some "y") [],
       .elem "w:rPr" [] none [.elem "w:rStyle" [("w:val", "S")] none []]]]

end MiniDock

-- ===============================================================
-- Theorems
-- ===============================================================

namespace MiniDock

@[simp] theorem Res.bind_ok {α β : Type} (a : α) (f : α → Res β) :
    Res.bind (.ok a) f = f a := rfl

@[simp] theorem Res.bind_exn {α β : Type} (f : α → Res β) :
    Res.bind (.exn : Res α) f = .exn := rfl

@[simp] theorem Res.bind_fuel {α β : Type} (f : α → Res β) :
    Res.bind (.fuel : Res α) f = .fuel := rfl

theorem merge_cycle_aux (fuel : Nat) :
    mergeStyleFuel fuel cycleStyles [] "A" = .fuel ∧
    mergeStyleFuel fuel cycleStyles [] "B" = .fuel := by
  induction fuel with
  | zero => exact ⟨rfl, rfl⟩
  | succ n ih =>
    refine ⟨?_, ?_⟩
    · have h1 : mergeStyleFuel (n + 1) cycleStyles [] "A" =
        mergeFinish "A" { basedOn := "B" } (mergeStyleFuel n cycleStyles [] "B") := rfl
      rw [h1, ih.2]
      rfl
    · have h1 : mergeStyleFuel (n + 1) cycleStyles [] "B" =
        mergeFinish "B" { basedOn := "A" } (mergeStyleFuel n cycleStyles [] "A") := rfl
      rw [h1, ih.1]
      rfl

/-- Claim C1, counterexample: on the two-element `basedOn` cycle
`A ↔ B` the recursion of `mergeStyleCached` starting from the cleared
cache exhausts every recursion-depth bound — the cache is written only
after the recursive call returns, so no invocation inside the cycle ever
finds a cache entry, and the C++ call does not terminate (the claimed
cycle-breaking return of an already-inserted partial result never
happens). -/
theorem mergeStyle_diverges_on_cycle : mergeDiverges cycleStyles "A" :=
  fun fuel => (merge_cycle_aux fuel).1

/-- Claim C1 (amended): `resolve(map, id)` terminates whenever the
`basedOn` chain from `id` is finite (in particular on acyclic maps),
whatever the current cache: a recursion-depth bound that exhausts the
chain always yields a result. On a `basedOn` cycle the recursion does not
terminate, as the counterexample shows. -/
theorem mergeStyle_terminates_of_finite_chain :
    ∀ (fuel : Nat) (styles : StyleMap) (styleId : String) (cache : Cache),
      (chainLen fuel styles styleId).isSome = true →
      ∃ st c, mergeStyleFuel fuel styles cache styleId = .ok (st, c) := by
  intro fuel
  induction fuel with
  | zero =>
    intro styles styleId cache h
    simp [chainLen] at h
  | succ n ih =>
    intro styles styleId cache h
    by_cases hid : styleId = ""
    · exact ⟨{}, cache, by simp [mergeStyleFuel, hid]⟩
    · cases hcache : lookupStr cache styleId with
      | some cached => exact ⟨cached, cache, by simp [mergeStyleFuel, hid, hcache]⟩
      | none =>
        cases hs : lookupStr styles styleId with
        | none =>
          exact ⟨{}, (styleId, ({} : Style)) :: cache, by simp [mergeStyleFuel, hid, hcache, hs]⟩
        | some cur =>
          by_cases hb : cur.basedOn = ""
          · refine ⟨overlayStyle {} cur, (styleId, overlayStyle {} cur) :: cache, ?_⟩
            simp [mergeStyleFuel, hid, hcache, hs, hb, mergeFinish]
          · have hch : (chainLen n styles cur.basedOn).isSome = true := by
              simp [chainLen, hid, hs, hb, Option.isSome_map] at h
              simpa using h
            obtain ⟨st, c, hrec⟩ := ih styles cur.basedOn cache hch
            refine ⟨overlayStyle st cur, (styleId, overlayStyle st cur) :: c, ?_⟩
            simp [mergeStyleFuel, hid, hcache, hs, hb, hrec, mergeFinish]

/-- Witness for the amended C1 theorem at the acyclic two-link chain
`c1styles`. -/
theorem mergeStyle_terminates_of_finite_chain_witness :
    (chainLen 3 c1styles "A").isSome = true ∧
    ∃ st c, mergeStyleFuel 3 c1styles [] "A" = .ok (st, c) :=
  ⟨by decide, mergeStyle_terminates_of_finite_chain 3 c1styles "A" [] (by decide)⟩

/-- Claim C4: in the merge step of style resolution, each of the numeric
fields `fontSize`, `lineSpacing`, `spaceBefore`, `spaceAfter`,
`indentLeft`, `indentRight`, `indentFirstLine` and `level` of the current
style overrides the inherited value exactly when it is strictly positive;
in particular a current `lineSpacing` of 0 (the spec's unset sentinel)
never overrides the inherited `lineSpacing`. Stated on the non-trivial
branch of `mergeStyleCached`: id non-empty, not cached, present in the map,
with the `basedOn` base resolving to `base`. -/
theorem mergeStyle_numeric_positive_override
    (fuel : Nat) (styles : StyleMap) (cache : Cache) (styleId : String)
    (cur base : Style) (c2 : Cache)
    (hid : styleId ≠ "") (hc : lookupStr cache styleId = none)
    (hs : lookupStr styles styleId = some cur)
    (hb : (if cur.basedOn = "" then Res.ok (({} : Style), cache)
           else mergeStyleFuel fuel styles cache cur.basedOn) = .ok (base, c2)) :
    mergeStyleFuel (fuel + 1) styles cache styleId =
      .ok (overlayStyle base cur, (styleId, overlayStyle base cur) :: c2) ∧
    (overlayStyle base cur).fontSize =
      (if cur.fontSize > 0 then cur.fontSize else base.fontSize) ∧
    (overlayStyle base cur).lineSpacing =
      (if cur.lineSpacing > 0 then cur.lineSpacing else base.lineSpacing) ∧
    (overlayStyle base cur).spaceBefore =
      (if cur.spaceBefore > 0 then cur.spaceBefore else base.spaceBefore) ∧
    (overlayStyle base cur).spaceAfter =
      (if cur.spaceAfter > 0 then cur.spaceAfter else base.spaceAfter) ∧
    (overlayStyle base cur).indentLeft =
      (if cur.indentLeft > 0 then cur.indentLeft else base.indentLeft) ∧
    (overlayStyle base cur).indentRight =
      (if cur.indentRight > 0 then cur.indentRight else base.indentRight) ∧
    (overlayStyle base cur).indentFirstLine =
      (if cur.indentFirstLine > 0 then cur.indentFirstLine else base.indentFirstLine) ∧
    (overlayStyle base cur).level =
      (if cur.level > 0 then cur.level else base.level) ∧
    (cur.lineSpacing = 0 → (overlayStyle base cur).lineSpacing = base.lineSpacing) := by
  refine ⟨?_, rfl, rfl, rfl, rfl, rfl, rfl, rfl, rfl, ?_⟩
  · simp [mergeStyleFuel, hid, hc, hs, hb, mergeFinish]
  · intro h0
    simp [overlayStyle, h0]

/-- Witness for the C4 theorem at the one-style map `c4styles` whose style
has `fontSize` 5 and `lineSpacing` 0: the merged style keeps the inherited
(default) `lineSpacing` and takes the positive `fontSize`. -/
theorem mergeStyle_numeric_positive_override_witness :
    lookupStr c4styles "A" = some c4style ∧
    mergeStyleFuel 1 c4styles [] "A" =
      .ok (overlayStyle {} c4style, [("A", overlayStyle {} c4style)]) :=
  ⟨rfl, (mergeStyle_numeric_positive_override 0 c4styles [] "A" c4style {} []
      (by decide) rfl rfl rfl).1⟩

theorem mergeRunsAux_text (l : List Run) :
    ∀ last : Run, concatTexts (mergeRunsAux last l) = last.text ++ concatTexts l := by
  induction l with
  | nil =>
    intro last
    simp [mergeRunsAux, concatTexts]
  | cons r rest ih =>
    intro last
    by_cases h : sameRunStyle last r
    · simp only [mergeRunsAux, h, if_pos, ih, concatTexts]
      rw [String.append_assoc]
    · simp only [mergeRunsAux, h, if_neg, Bool.false_eq_true, concatTexts, ih]

/-- Claim C9: for every list of runs, the in-order concatenation of the
run texts after `mergeAdjacentRuns` equals the concatenation before (a
fingerprint-equal run is absorbed by appending its text, any other run is
kept). -/
theorem mergeAdjacentRuns_preserves_text (runs : List Run) :
    concatTexts (mergeAdjacentRuns runs) = concatTexts runs := by
  cases runs with
  | nil => rfl
  | cons r rest => simp [mergeAdjacentRuns, mergeRunsAux_text, concatTexts]

/-- Claim C2: at a styles part whose only numeric attribute is the
malformed `<w:sz w:val="abc"/>`, the document pipeline propagates the
`std::stof` exception out of the user-facing call instead of treating the
attribute as unset and returning a Document. -/
theorem readDocument_raises_on_malformed_numeric :
    readDocumentFromParts 1 (some badStylesXml) none none none = .exn := by
  rfl

/-- Claim C3: on a paragraph with two adjacent footnote-reference runs
(ids 1 and 2), the coalescer merges the second into the first —
`sameRunStyle` does not compare `noteId`, every compared field is at its
default in both runs — so the emitted paragraph holds a single run with
`noteId` 1 and the id-2 reference is lost, contradicting the claim that a
run with non-zero `noteId` always remains a distinct run. -/
theorem noteRef_runs_merged_on_adjacent_refs :
    readParagraph 2 [] [] twoNoteRefsPara =
      .ok ({ runs := [{ noteId := 1 }] }, [("Normal", {})]) := by
  rfl

/-- Claim C5, counterexample: a `<w:p>` with no `<w:pPr>` child, read
against a map whose `Normal` style is centered. The claim requires the
paragraph to be seeded from the resolved `Normal` (justification Center)
with styleId `"Normal"`; the code only seeds inside the `<w:pPr>` branch,
so the paragraph comes out with every field at its default — justification
Left, styleId `""` — even though the reader still resolves `Normal` into
the cache. -/
theorem readParagraph_no_pPr_not_seeded :
    readParagraph 2 stylesC5 [] pNoPPr =
      .ok (({} : Paragraph), [("Normal", { justification := .Center })]) := by
  rfl

/-- Claim C6, counterexample: a run with text but no `<w:rPr>` element,
read with `pStyleId = "S"` where `S` is bold. The claim requires the
resolved `S` to be applied (bold run); the code performs style resolution
only inside the `<w:rPr>` branch, so the run comes out unstyled (bold
false) and the cache is not even touched. -/
theorem readRun_without_rPr_unstyled :
    readRunElem 1 stylesBoldS "S" [] rNoRPr = .ok ({ text := "x" }, []) := by
  rfl

/-- Claim C7, counterexample: a run holding only
`<w:endnoteReference w:id="7">x</w:endnoteReference>`. The claim (by its
endnote symmetry) requires a Run with `noteId = 7` and text `"x"`; the
code only recognises `w:footnoteReference`, so the run is processed as an
ordinary run: empty text, `noteId = 0`. -/
theorem readRun_endnote_ref_ignored :
    readRunElem 1 [] "Normal" [] endnoteRun = .ok (({} : Run), []) := by
  rfl

/-- Claim C8, counterexample: a footnote reference with `w:id="0"`. The
run is emitted by the note-reference branch (its text `"*"` is the
reference element's text, which the ordinary branch could never produce),
yet its `noteId` is 0 — the claim requires `noteId > 0` for every run
emitted for a note reference. -/
theorem noteRef_zero_id_run :
    readParagraph 2 [] [] pRefZero =
      .ok ({ runs := [{ text := "*" }] }, [("Normal", {})]) := by
  rfl

theorem mergeStyleFuel_cache_hit (fuel : Nat) (styles : StyleMap) (cache : Cache)
    (styleId : String) (st : Style) (c1 : Cache)
    (hid : styleId ≠ "") (h : mergeStyleFuel fuel styles cache styleId = .ok (st, c1)) :
    lookupStr c1 styleId = some st := by
  cases fuel with
  | zero => simp [mergeStyleFuel] at h
  | succ n =>
    rw [mergeStyleFuel, if_neg hid] at h
    split at h
    · rename_i cached heq
      simp only [Res.ok.injEq, Prod.mk.injEq] at h
      obtain ⟨h1, h2⟩ := h
      subst h1
      subst h2
      exact heq
    · rename_i heq
      split at h
      · simp only [Res.ok.injEq, Prod.mk.injEq] at h
        obtain ⟨h1, h2⟩ := h
        subst h1
        subst h2
        simp [lookupStr]
      · rename_i cur heq2
        cases hb : (if cur.basedOn = "" then Res.ok (({} : Style), cache)
            else mergeStyleFuel n styles cache cur.basedOn) with
        | ok bc =>
          rw [hb] at h
          simp only [mergeFinish, Res.ok.injEq, Prod.mk.injEq] at h
          obtain ⟨h1, h2⟩ := h
          subst h1
          subst h2
          simp [lookupStr]
        | exn => rw [hb] at h; simp [mergeFinish] at h
        | fuel => rw [hb] at h; simp [mergeFinish] at h

theorem mergeStyleFuel_hit_step (n : Nat) (styles : StyleMap) (c1 : Cache)
    (styleId : String) (st : Style)
    (hid : styleId ≠ "") (hhit : lookupStr c1 styleId = some st) :
    mergeStyleFuel (n + 1) styles c1 styleId = .ok (st, c1) := by
  simp [mergeStyleFuel, hid, hhit]

/-- Claim C5 (amended): only for a `<w:p>` that has a `<w:pPr>` child does
the reader resolve `pStyleId` (`"Normal"` when `<w:pStyle>` is absent or
empty) and seed the paragraph's numbering, justification, direction,
spacing, indentation and tab fields from the resolved style (`lineSpacing`
only when the resolved value is positive) — and the Paragraph's `styleId`
is set to the raw `<w:pStyle>` value, which stays empty when the element is
absent, not to the `"Normal"`-defaulted id. (Stated with no direct
`<w:pPr>` overrides and no runs, so that the seeded values are the final
ones; a `<w:p>` without `<w:pPr>` keeps every default field, as the
counterexample shows.) -/
theorem readParagraph_seeds_from_resolved_style
    (fuel : Nat) (styles : StyleMap) (cache : Cache) (p pPr : Xml)
    (pid0 : String) (st : Style) (c1 : Cache)
    (hpPr : p.firstChildElem "w:pPr" = some pPr)
    (hpid : ((pPr.firstChildElem "w:pStyle").bind (fun e => e.attr "w:val")).getD "" = pid0)
    (hmerge : mergeStyleFuel fuel styles cache (if pid0 = "" then "Normal" else pid0) =
      .ok (st, c1))
    (hnum : pPr.firstChildElem "w:numPr" = none)
    (hjc : pPr.firstChildElem "w:jc" = none)
    (hbidi : pPr.firstChildElem "w:bidi" = none)
    (hind : pPr.firstChildElem "w:ind" = none)
    (hspacing : pPr.firstChildElem "w:spacing" = none)
    (htabs : pPr.firstChildElem "w:tabs" = none)
    (hruns : p.childrenNamed "w:r" = []) :
    readParagraph fuel styles cache p =
      .ok ({ style := pid0
             level := st.level
             numbered := st.numbered
             numberFormat := st.numberFormat
             numberStyle := st.numberStyle
             justification := st.justification
             rightDirection := st.rightDirection
             lineSpacing := if st.lineSpacing > 0 then st.lineSpacing else 1
             spaceBefore := st.spaceBefore
             spaceAfter := st.spaceAfter
             spaceBetweenSameStyle := st.spaceBetweenSameStyle
             indentLeft := st.indentLeft
             indentRight := st.indentRight
             indentFirstLine := st.indentFirstLine
             tabs := st.tabs
             runs := [] }, c1) := by
  have hpidne : (if pid0 = "" then "Normal" else pid0) ≠ "" := by
    by_cases h0 : pid0 = "" <;> simp [h0]
  obtain ⟨n, rfl⟩ : ∃ n, fuel = n + 1 := by
    cases fuel with
    | zero => simp [mergeStyleFuel] at hmerge
    | succ n => exact ⟨n, rfl⟩
  have hhit : lookupStr c1 (if pid0 = "" then "Normal" else pid0) = some st :=
    mergeStyleFuel_cache_hit _ _ _ _ _ _ hpidne hmerge
  have hm2 : mergeStyleFuel (n + 1) styles c1 (if pid0 = "" then "Normal" else pid0) =
      .ok (st, c1) := mergeStyleFuel_hit_step n styles c1 _ st hpidne hhit
  have hpart : readParaPart (n + 1) styles cache p =
      .ok ({ style := pid0
             level := st.level
             numbered := st.numbered
             numberFormat := st.numberFormat
             numberStyle := st.numberStyle
             justification := st.justification
             rightDirection := st.rightDirection
             lineSpacing := if st.lineSpacing > 0 then st.lineSpacing else 1
             spaceBefore := st.spaceBefore
             spaceAfter := st.spaceAfter
             spaceBetweenSameStyle := st.spaceBetweenSameStyle
             indentLeft := st.indentLeft
             indentRight := st.indentRight
             indentFirstLine := st.indentFirstLine
             tabs := st.tabs
             runs := [] }, pid0, c1) := by
    rw [readParaPart, hpPr]
    simp only [readParaProps, hpid, hmerge, overlayNumPr, hnum, hjc, hbidi, overlayInd, hind,
      overlaySpacing, hspacing, overlayTabs, htabs, Option.none_bind, Option.isSome_none,
      Bool.false_eq_true, if_false, Res.bind_ok]
  rw [readParagraph, hpart]
  simp [hm2, hruns, readRuns, mergeAdjacentRuns]

/-- Witness for the amended C5 theorem: a paragraph referencing style `T`
(right-aligned, `lineSpacing` 0, `spaceBefore` 3) with no direct overrides
and no runs. -/
theorem readParagraph_seeds_from_resolved_style_witness :
    mergeStyleFuel 1 c5wStyles [] (if "T" = "" then "Normal" else "T") =
      .ok (c5wResolved, [("T", c5wResolved)]) ∧
    readParagraph 1 c5wStyles [] c5wPara =
      .ok ({ style := "T"
             level := c5wResolved.level
             numbered := c5wResolved.numbered
             numberFormat := c5wResolved.numberFormat
             numberStyle := c5wResolved.numberStyle
             justification := c5wResolved.justification
             rightDirection := c5wResolved.rightDirection
             lineSpacing := if c5wResolved.lineSpacing > 0 then c5wResolved.lineSpacing else 1
             spaceBefore := c5wResolved.spaceBefore
             spaceAfter := c5wResolved.spaceAfter
             spaceBetweenSameStyle := c5wResolved.spaceBetweenSameStyle
             indentLeft := c5wResolved.indentLeft
             indentRight := c5wResolved.indentRight
             indentFirstLine := c5wResolved.indentFirstLine
             tabs := c5wResolved.tabs
             runs := [] }, [("T", c5wResolved)]) :=
  ⟨rfl, readParagraph_seeds_from_resolved_style 1 c5wStyles [] c5wPara c5wPPr "T"
      c5wResolved [("T", c5wResolved)] rfl rfl rfl rfl rfl rfl rfl rfl rfl rfl⟩

/-- Claim C6 (amended): only for a run element that has a `<w:rPr>` child
does the reader resolve a run style; there, when `<w:rStyle w:val>` is
absent or empty the run style id defaults to the paragraph's `pStyleId`,
and the character properties of the resolved style are applied to the run
under the sticky-boolean / positive-numeric / non-empty rules before the
direct properties are overlaid. A run with no `<w:rPr>` element at all
gets no style application (see the counterexample). -/
theorem readRun_style_defaults_to_pStyleId
    (fuel : Nat) (styles : StyleMap) (cache : Cache) (pStyleId : String)
    (r rPr : Xml) (st : Style) (c1 : Cache) (run2 : Run)
    (hnote : noteRefVal r = none)
    (hrPr : r.firstChildElem "w:rPr" = some rPr)
    (hsty : ((rPr.firstChildElem "w:rStyle").bind (fun e => e.attr "w:val")).getD "" = "")
    (hmerge : mergeStyleFuel fuel styles cache pStyleId = .ok (st, c1))
    (hdirect : applyDirectRunProps rPr (applyStyleToRun st (extractRunText r)) = .ok run2) :
    readRunElem fuel styles pStyleId cache r = .ok (run2, c1) ∧
    (∀ run : Run, (applyStyleToRun st run).bold = (st.bold || run.bold)) ∧
    (∀ run : Run, (applyStyleToRun st run).fontSize =
      if st.fontSize > 0 then st.fontSize else run.fontSize) ∧
    (∀ run : Run, (applyStyleToRun st run).fontFamily =
      if st.fontFamily ≠ "" then st.fontFamily else run.fontFamily) ∧
    (∀ run : Run, (applyStyleToRun st run).color =
      if ¬st.color.isEmpty then st.color else run.color) := by
  refine ⟨?_, ?_, fun run => rfl, fun run => rfl, fun run => rfl⟩
  · rw [readRunElem, hnote]
    simp only [rStyleIdOf, hsty, if_pos, hrPr, hmerge, hdirect]
  · intro run
    cases hb : st.bold <;> simp [applyStyleToRun, hb]

/-- Witness for the amended C6 theorem: a run with trimmed text, an italic
direct flag and no `<w:rStyle>`, read with `pStyleId = "S"` where `S` is
bold — the emitted run is bold through the paragraph-defaulted style id and
italic through the direct flag. -/
theorem readRun_style_defaults_to_pStyleId_witness :
    mergeStyleFuel 1 stylesBoldS [] "S" =
      .ok (overlayStyle {} { bold := true }, [("S", overlayStyle {} { bold := true })]) ∧
    readRunElem 1 stylesBoldS "S" [] c6wRun =
      .ok ({ text := "hi", bold := true, italic := true },
           [("S", overlayStyle {} { bold := true })]) :=
  ⟨rfl, (readRun_style_defaults_to_pStyleId 1 stylesBoldS [] "S" c6wRun c6wRPr
      (overlayStyle {} { bold := true }) [("S", overlayStyle {} { bold := true })]
      { text := "hi", bold := true, italic := true } rfl rfl rfl rfl rfl).1⟩

/-- Claim C7 (amended): for every run element whose first
`<w:footnoteReference>` child carries a `w:id` attribute, the reader emits
a Run whose `noteId` is the `atoi` of the attribute converted to
`uint32_t` (the id reduced mod 2^32) and whose text is the reference
element's text (empty when absent), performing no further property
extraction — the cache is returned untouched and every other field keeps
its default. Endnote references are not recognised at all: such a run is
processed as an ordinary run (see the counterexample). -/
theorem readRun_footnote_ref_emits_note
    (fuel : Nat) (styles : StyleMap) (cache : Cache) (pStyleId : String)
    (r fr : Xml) (v : String)
    (hfr : r.firstChildElem "w:footnoteReference" = some fr)
    (hid : fr.attr "w:id" = some v) :
    readRunElem fuel styles pStyleId cache r =
      .ok ({ noteId := uint32OfInt (atoiModel v), text := (fr.getText).getD "" }, cache) := by
  rw [readRunElem]
  simp [noteRefVal, hfr, hid]

/-- Witness for the amended C7 theorem at a reference with id 3 and marker
text `*`. -/
theorem readRun_footnote_ref_emits_note_witness :
    c7wRun.firstChildElem "w:footnoteReference" = some c7wRef ∧
    readRunElem 1 [] "Normal" [] c7wRun =
      .ok ({ noteId := uint32OfInt (atoiModel "3"), text := (c7wRef.getText).getD "" }, []) :=
  ⟨rfl, readRun_footnote_ref_emits_note 1 [] [] "Normal" c7wRun c7wRef "3" rfl rfl⟩

theorem applyDirectRunProps_preserves (rPr : Xml) (run run2 : Run)
    (h : applyDirectRunProps rPr run = .ok run2) :
    run2.noteId = run.noteId ∧ run2.style = run.style := by
  rw [applyDirectRunProps] at h
  split at h
  · exact absurd h (by simp)
  · exact absurd h (by simp)
  · split at h
    · exact absurd h (by simp)
    · exact absurd h (by simp)
    · split at h
      · exact absurd h (by simp)
      · exact absurd h (by simp)
      · simp only [Res.ok.injEq] at h
        subst h
        exact ⟨rfl, rfl⟩

theorem noteRefVal_shape (r : Xml) (fr : Xml) (v : String)
    (h : noteRefVal r = some (fr, v)) :
    r.firstChildElem "w:footnoteReference" = some fr ∧ fr.attr "w:id" = some v := by
  rw [noteRefVal] at h
  cases hfc : r.firstChildElem "w:footnoteReference" with
  | none => rw [hfc] at h; simp at h
  | some fr0 =>
    rw [hfc] at h
    cases hat : fr0.attr "w:id" with
    | none => simp [hat] at h
    | some v0 =>
      simp only [hat, Option.some_bind, Option.map_some, Option.map_some',
        Option.some.injEq, Prod.mk.injEq] at h
      obtain ⟨h1, h2⟩ := h
      subst h1
      subst h2
      exact ⟨rfl, hat⟩

theorem readRunElem_fields (fuel : Nat) (styles : StyleMap) (pStyleId : String)
    (cache : Cache) (r : Xml) (run : Run) (c1 : Cache)
    (h : readRunElem fuel styles pStyleId cache r = .ok (run, c1)) :
    run.style = "" ∧
    (run.noteId = 0 ∨ ∃ fr v, r.firstChildElem "w:footnoteReference" = some fr ∧
      fr.attr "w:id" = some v ∧ run.noteId = uint32OfInt (atoiModel v)) := by
  rw [readRunElem] at h
  split at h
  · rename_i fr v hnr
    simp only [Res.ok.injEq, Prod.mk.injEq] at h
    obtain ⟨h1, h2⟩ := h
    subst h1
    obtain ⟨hfc, hat⟩ := noteRefVal_shape r fr v hnr
    exact ⟨rfl, Or.inr ⟨fr, v, hfc, hat, rfl⟩⟩
  · split at h
    · simp only [Res.ok.injEq, Prod.mk.injEq] at h
      obtain ⟨h1, h2⟩ := h
      subst h1
      exact ⟨rfl, Or.inl rfl⟩
    · rename_i rPr hrPr
      split at h
      · rename_i sc rSt cache1 hm
        split at h
        · rename_i run2 hd
          simp only [Res.ok.injEq, Prod.mk.injEq] at h
          obtain ⟨h1, h2⟩ := h
          subst h1
          obtain ⟨hn, hs⟩ := applyDirectRunProps_preserves rPr _ run2 hd
          refine ⟨hs.trans rfl, Or.inl (hn.trans rfl)⟩
        · exact absurd h (by simp)
        · exact absurd h (by simp)
      · exact absurd h (by simp)
      · exact absurd h (by simp)

theorem readRuns_fields (fuel : Nat) (styles : StyleMap) (pStyleId : String) :
    ∀ (rs : List Xml) (cache : Cache) (runs : List Run) (c2 : Cache),
      readRuns fuel styles pStyleId cache rs = .ok (runs, c2) →
      ∀ run ∈ runs, run.style = "" ∧
        (run.noteId = 0 ∨ ∃ r ∈ rs, ∃ fr v,
          r.firstChildElem "w:footnoteReference" = some fr ∧
          fr.attr "w:id" = some v ∧ run.noteId = uint32OfInt (atoiModel v)) := by
  intro rs
  induction rs with
  | nil =>
    intro cache runs c2 h run hrun
    rw [readRuns] at h
    simp only [Res.ok.injEq, Prod.mk.injEq] at h
    obtain ⟨h1, h2⟩ := h
    subst h1
    simp at hrun
  | cons r rest ih =>
    intro cache runs c2 h run hrun
    rw [readRuns] at h
    split at h
    · rename_i run1 c1 h1
      split at h
      · rename_i runs1 c2x h2
        simp only [Res.ok.injEq, Prod.mk.injEq] at h
        obtain ⟨h3, h4⟩ := h
        subst h3
        rcases List.mem_cons.mp hrun with hr1 | hr2
        · subst hr1
          obtain ⟨hstyle, hnote⟩ := readRunElem_fields fuel styles pStyleId cache r run c1 h1
          refine ⟨hstyle, ?_⟩
          rcases hnote with h0 | ⟨fr, v, hfc, hat, hn⟩
          · exact Or.inl h0
          · exact Or.inr ⟨r, List.mem_cons_self r rest, fr, v, hfc, hat, hn⟩
        · obtain ⟨hstyle, hnote⟩ := ih c1 runs1 c2x h2 run hr2
          refine ⟨hstyle, ?_⟩
          rcases hnote with h0 | ⟨r2, hr2mem, fr, v, hfc, hat, hn⟩
          · exact Or.inl h0
          · exact Or.inr ⟨r2, List.mem_cons_of_mem r hr2mem, fr, v, hfc, hat, hn⟩
      · exact absurd h (by simp)
      · exact absurd h (by simp)
    · exact absurd h (by simp)
    · exact absurd h (by simp)

theorem mergeRunsAux_source (l : List Run) :
    ∀ (last : Run) (y : Run), y ∈ mergeRunsAux last l →
      (y.noteId = last.noteId ∧ y.style = last.style) ∨
      ∃ x ∈ l, y.noteId = x.noteId ∧ y.style = x.style := by
  induction l with
  | nil =>
    intro last y hy
    rw [mergeRunsAux] at hy
    simp at hy
    subst hy
    exact Or.inl ⟨rfl, rfl⟩
  | cons r rest ih =>
    intro last y hy
    rw [mergeRunsAux] at hy
    by_cases h : sameRunStyle last r
    · rw [if_pos h] at hy
      rcases ih _ y hy with h1 | ⟨x, hx, hxx⟩
      · exact Or.inl h1
      · exact Or.inr ⟨x, List.mem_cons_of_mem r hx, hxx⟩
    · rw [if_neg h] at hy
      rcases List.mem_cons.mp hy with hy1 | hy2
      · subst hy1
        exact Or.inl ⟨rfl, rfl⟩
      · rcases ih r y hy2 with h1 | ⟨x, hx, hxx⟩
        · exact Or.inr ⟨r, List.mem_cons_self r rest, h1⟩
        · exact Or.inr ⟨x, List.mem_cons_of_mem r hx, hxx⟩

theorem mergeAdjacentRuns_source (runs : List Run) (y : Run)
    (hy : y ∈ mergeAdjacentRuns runs) :
    ∃ x ∈ runs, y.noteId = x.noteId ∧ y.style = x.style := by
  cases runs with
  | nil => simp [mergeAdjacentRuns] at hy
  | cons r rest =>
    rw [mergeAdjacentRuns] at hy
    rcases mergeRunsAux_source rest r y hy with ⟨h1, h2⟩ | ⟨x, hx, hxx⟩
    · exact ⟨r, List.mem_cons_self r rest, h1, h2⟩
    · exact ⟨x, List.mem_cons_of_mem r hx, hxx⟩

/-- Claim C8 (amended): in every paragraph produced by the reader, a run
not emitted for a footnote reference has `noteId = 0`, and a run with
`noteId ≠ 0` can only come from a `<w:r>` child holding a
`<w:footnoteReference>` with a `w:id` attribute, its `noteId` being the
`atoi` of that attribute reduced mod 2^32 — which is positive for every
non-zero parsed id but equals 0 when the attribute parses to 0, in which
case the note-reference run is indistinguishable from a normal run (see
the counterexample). -/
theorem readParagraph_noteId_provenance
    (fuel : Nat) (styles : StyleMap) (cache : Cache) (p : Xml)
    (para : Paragraph) (c : Cache)
    (h : readParagraph fuel styles cache p = .ok (para, c)) :
    ∀ run ∈ para.runs, run.noteId = 0 ∨
      ∃ r ∈ p.childrenNamed "w:r", ∃ fr v,
        r.firstChildElem "w:footnoteReference" = some fr ∧
        fr.attr "w:id" = some v ∧ run.noteId = uint32OfInt (atoiModel v) := by
  intro run hrun
  rw [readParagraph] at h
  split at h
  · rename_i para0 pStyleId0 c1 hpart
    split at h
    · rename_i st c2 hm
      split at h
      · rename_i runs c3 hruns
        simp only [Res.ok.injEq, Prod.mk.injEq] at h
        obtain ⟨h1, h2⟩ := h
        subst h1
        obtain ⟨x, hx, hnx, hsx⟩ := mergeAdjacentRuns_source runs run (by simpa using hrun)
        obtain ⟨hstyle, hnote⟩ :=
          readRuns_fields fuel styles _ (p.childrenNamed "w:r") c2 runs c3 hruns x hx
        rcases hnote with h0 | ⟨r2, hr2, fr, v, hfc, hat, hn⟩
        · exact Or.inl (hnx.trans h0)
        · exact Or.inr ⟨r2, hr2, fr, v, hfc, hat, hnx.trans hn⟩
      · exact absurd h (by simp)
      · exact absurd h (by simp)
    · exact absurd h (by simp)
    · exact absurd h (by simp)
  · exact absurd h (by simp)
  · exact absurd h (by simp)

/-- Witness for the amended C8 theorem at the paragraph `pRefZero`. -/
theorem readParagraph_noteId_provenance_witness :
    readParagraph 2 [] [] pRefZero =
      .ok ({ runs := [{ text := "*" }] }, [("Normal", {})]) ∧
    ∀ run ∈ ({ runs := [{ text := "*" }] } : Paragraph).runs, run.noteId = 0 ∨
      ∃ r ∈ pRefZero.childrenNamed "w:r", ∃ fr v,
        r.firstChildElem "w:footnoteReference" = some fr ∧
        fr.attr "w:id" = some v ∧ run.noteId = uint32OfInt (atoiModel v) :=
  ⟨rfl, fun run hrun =>
    readParagraph_noteId_provenance 2 [] [] pRefZero
      { runs := [{ text := "*" }] } [("Normal", {})] rfl run hrun⟩

/-- Claim C10: every run built by the paragraph reader — note references
included — has its `style` field equal to the empty string: `readParagraph`
never assigns the resolved run style id to the run, so the `styleId`
component of the coalescing fingerprint compares equal for any two runs of
a paragraph. -/
theorem readParagraph_runs_style_empty
    (fuel : Nat) (styles : StyleMap) (cache : Cache) (p : Xml)
    (para : Paragraph) (c : Cache)
    (h : readParagraph fuel styles cache p = .ok (para, c)) :
    ∀ run ∈ para.runs, run.style = "" := by
  intro run hrun
  rw [readParagraph] at h
  split at h
  · rename_i para0 pStyleId0 c1 hpart
    split at h
    · rename_i st c2 hm
      split at h
      · rename_i runs c3 hruns
        simp only [Res.ok.injEq, Prod.mk.injEq] at h
        obtain ⟨h1, h2⟩ := h
        subst h1
        obtain ⟨x, hx, hnx, hsx⟩ := mergeAdjacentRuns_source runs run (by simpa using hrun)
        exact hsx.trans
          (readRuns_fields fuel styles _ (p.childrenNamed "w:r") c2 runs c3 hruns x hx).1
      · exact absurd h (by simp)
      · exact absurd h (by simp)
    · exact absurd h (by simp)
    · exact absurd h (by simp)
  · exact absurd h (by simp)
  · exact absurd h (by simp)

/-- Witness for the C10 theorem at a paragraph whose run is styled through
`<w:rStyle w:val="S">` with `S` bold: the emitted run is bold but its
`style` field is still empty. -/
theorem readParagraph_runs_style_empty_witness :
    readParagraph 2 stylesBoldS [] c10wPara =
      .ok ({ runs := [{ text := "y", bold := true }] },
           [("S", overlayStyle {} { bold := true }), ("Normal", {})]) ∧
    ∀ run ∈ ({ runs := [{ text := "y", bold := true }] } : Paragraph).runs, run.style = "" :=
  ⟨rfl, fun run hrun =>
    readParagraph_runs_style_empty 2 stylesBoldS [] c10wPara
      { runs := [{ text := "y", bold := true }] }
      [("S", overlayStyle {} { bold := true }), ("Normal", {})] rfl run hrun⟩

end MiniDock
